import Mathlib

/-!
Shallow embedding of the classification engine of the `metadata-extractor`
repository, covering `CKANSiteTypeDetector` (file `3-siteType.py`) and
`normalize_region` (file `5-locationAnalyser.py`), together with proofs of
the behavioural properties stated about them.

Modelling conventions:
* Python strings are Lean `String`s; the regular expressions occurring in the
  source use only literal characters, the escaped dot `\.`, the alternation
  `(\.|$)`, the classes `[a-z]` and `\d` with the counts `{2}`, `{2,}` and `+`,
  and the end anchor `$`.  A small executable matcher for exactly these
  constructs is defined below, and `re.search` is modelled as `reSearch`
  (match at any position).  `\d` and `[a-z]` are read as their ASCII classes.
* Python floats carry only exact small rationals here (hit counts divided by
  pattern-list lengths, scaled by 100, and small integer constants), so
  confidences are modelled as `ℚ`.
* `urlparse(url).netloc` is modelled by `extractNetlocE`, including the one
  failure path relevant to the classifier: CPython's `urlsplit` raises
  `ValueError("Invalid IPv6 URL")` when the netloc contains an unmatched
  square bracket.  The `Except` value models that exception.
-/

/-- ASCII character classes appearing in the source regexes (`[a-z]`, `\d`). -/
inductive CharCls where
  | lower
  | digit
deriving DecidableEq

/-- Membership of a character in a class. -/
def CharCls.mem : CharCls → Char → Bool
  | .lower, c => decide ('a' ≤ c) && decide (c ≤ 'z')
  | .digit, c => decide ('0' ≤ c) && decide (c ≤ '9')

/-- Regular expressions restricted to the constructs used in `3-siteType.py`:
literals, ASCII classes, the end-of-string anchor `$`, sequencing,
alternation, and zero-or-more repetition of a class (enough for `{2,}` and
`+`, which repeat single-character classes). -/
inductive RE where
  | eps
  | char (c : Char)
  | cls (k : CharCls)
  | eos
  | seq (a b : RE)
  | alt (a b : RE)
  | starCls (k : CharCls)
deriving DecidableEq

/-- Continuation trying `starCls k` at every number of consumed `k`-characters. -/
def starLoop (k : CharCls) (f : List Char → Bool) : List Char → Bool
  | [] => f []
  | c :: cs => f (c :: cs) || (k.mem c && starLoop k f cs)

/-- `matchHere r s f`: some prefix of `s` matches `r` and the continuation `f`
accepts the corresponding suffix (`.eos` additionally requires the end of the
string). -/
def matchHere : RE → List Char → (List Char → Bool) → Bool
  | .eps, s, f => f s
  | .char _, [], _ => false
  | .char c, x :: xs, f => (x == c) && f xs
  | .cls _, [], _ => false
  | .cls k, x :: xs, f => k.mem x && f xs
  | .eos, s, f => s.isEmpty && f s
  | .seq a b, s, f => matchHere a s (fun s2 => matchHere b s2 f)
  | .alt a b, s, f => matchHere a s f || matchHere b s f
  | .starCls k, s, f => starLoop k f s

/-- Try a match starting at every position, as `re.search` does. -/
def searchFrom (r : RE) : List Char → Bool
  | [] => matchHere r [] (fun _ => true)
  | c :: cs => matchHere r (c :: cs) (fun _ => true) || searchFrom r cs

/-- Model of Python's `re.search(pattern, s) is not None`. -/
def reSearch (r : RE) (s : String) : Bool :=
  searchFrom r s.data

/-- A literal string as a regex. -/
def lit (s : String) : RE :=
  s.data.foldr (fun c r => RE.seq (RE.char c) r) RE.eps

/-- The recurring source idiom `xyz(\.|$)`: a literal followed by a dot or
the end of the string. -/
def patTld (s : String) : RE :=
  .seq (lit s) (.alt (.char '.') .eos)

/-- A literal anchored at the end of the string, as in `\.uk$`. -/
def patEnd (s : String) : RE :=
  .seq (lit s) .eos

/-- `[a-z]{2}`. -/
def cc2 : RE := .seq (.cls .lower) (.cls .lower)

/-- `\d{2,}`. -/
def digits2 : RE := .seq (.cls .digit) (.seq (.cls .digit) (.starCls .digit))

/-- `[a-z]+`. -/
def plusLower : RE := .seq (.cls .lower) (.starCls .lower)

/-- Model of Python's substring containment `needle in hay`. -/
def substrAux (needle : List Char) : List Char → Bool
  | [] => needle.isEmpty
  | c :: cs => needle.isPrefixOf (c :: cs) || substrAux needle cs

/-- `containsSub hay needle` models the Python expression `needle in hay`. -/
def containsSub (hay needle : String) : Bool :=
  substrAux needle.data hay.data

/-- ASCII lowercasing of one character, as Python `str.lower` acts on the
ASCII range (the only range occurring in the data handled here). -/
def toLowerCh (c : Char) : Char :=
  if 'A' ≤ c ∧ c ≤ 'Z' then Char.ofNat (c.toNat + 32) else c

/-- Model of Python `str.lower()` (ASCII fragment). -/
def pyLower (s : String) : String :=
  String.mk (s.data.map toLowerCh)

/-- Python `str.strip()` whitespace set (ASCII fragment). -/
def pyIsSpace (c : Char) : Bool :=
  c == ' ' || c == '\t' || c == '\n' || c == '\r' || c == '\x0b' || c == '\x0c'

/-- Model of Python `str.strip()`: drop whitespace from both ends. -/
def pyStrip (s : String) : String :=
  String.mk (((s.data.dropWhile pyIsSpace).reverse.dropWhile pyIsSpace).reverse)

/-- Splitting on the dot character, as Python `s.split(".")`: the empty
string yields `[""]`, and leading/trailing/adjacent dots yield empty
fields. -/
def splitDotAux : List Char → List (List Char)
  | [] => [[]]
  | c :: cs =>
      if c = '.' then [] :: splitDotAux cs
      else
        match splitDotAux cs with
        | h :: t => (c :: h) :: t
        | [] => [[c]]

/-- Model of Python `s.split(".")`. -/
def pySplitDot (s : String) : List String :=
  (splitDotAux s.data).map String.mk

/-- Model of Python `s.endswith(suffix)`. -/
def pyEndsWith (s suffix : String) : Bool :=
  suffix.data.isSuffixOf s.data

/-- Characters allowed in a URL scheme after the initial letter
(CPython `scheme_chars`). -/
def schemeChar (c : Char) : Bool :=
  c.isAlphanum || c == '+' || c == '-' || c == '.'

/-- Strip a leading `scheme:` from a URL, following CPython `urlsplit`:
a scheme is present when the first `:` is preceded by a letter followed by
scheme characters. -/
def stripScheme (cs : List Char) : List Char :=
  match cs.findIdx? (fun c => c == ':') with
  | none => cs
  | some i =>
      if 0 < i && (cs.headD ' ').isAlpha && (cs.take i).all schemeChar then
        cs.drop (i + 1)
      else cs

/-- A character ending the netloc portion of a URL. -/
def netlocDelim (c : Char) : Bool :=
  c == '/' || c == '?' || c == '#'

/-- Model of `urlparse(url).netloc`, including the `ValueError` CPython's
`urlsplit` raises on an unmatched square bracket in the netloc; that is the
exception path exercised inside `get_site_type`. -/
def extractNetlocE (url : String) : Except String String :=
  match stripScheme url.data with
  | '/' :: '/' :: r =>
      let netloc := r.takeWhile (fun c => !netlocDelim c)
      if (netloc.contains '[' && !netloc.contains ']') ||
          (netloc.contains ']' && !netloc.contains '[') then
        .error "Invalid IPv6 URL"
      else .ok (String.mk netloc)
  | _ => .ok ""

/-- One entry of `self.domain_patterns` in `CKANSiteTypeDetector.__init__`:
a category name, its evidence patterns, and its tie-break priority. -/
structure CatConfig where
  name : String
  patterns : List RE
  priority : Nat
deriving DecidableEq

/-- The `domain_patterns` table of `CKANSiteTypeDetector.__init__`, in source
(= Python dict insertion) order. -/
def domain_patterns : List CatConfig := [
  { name := "Government",
    patterns := [
      patTld ".gov", patTld ".gob", patTld ".govt",
      .seq (lit ".go.") cc2, lit ".gc.", patTld ".mil",
      lit "government", lit "federal", lit "state.", lit "city.",
      lit "ministry", lit "municipal", lit "council", lit "administration",
      lit "public-data", lit "opendata.government", lit "data.gov",
      lit "datos.gob", lit "donnees.gouv", lit "dati.gov",
      lit ".admin.", lit ".public.", lit ".ciudad.",
      lit "prefecture", lit "region.", lit "departement.",
      lit "provincia.", lit "comune.", lit "canton."],
    priority := 1 },
  { name := "Educational",
    patterns := [
      patTld ".edu", .seq (lit ".ac.") cc2, .seq (lit ".edu.") cc2,
      lit "university", lit "universit", lit "universidad",
      lit "college", lit "school", lit "academy", lit "academia",
      lit "institute", lit "education", lit "educational",
      lit "campus", lit "faculty", lit "department",
      lit "hochschule", lit "universiteit", lit "universite",
      lit "politecnico", lit "politechnic"],
    priority := 2 },
  { name := "Research",
    patterns := [
      lit "research", lit "science", lit "scientific", lit "ciencia",
      lit "laboratory", lit "laboratorio", lit "labo",
      lit "innovation", lit "technology", lit "tech.",
      lit "experiment", lit "discovery", lit "institut",
      lit "observatory", lit "center-for", lit "centre-for",
      lit "biomedical", lit "genomics", lit "physics",
      lit "chemistry", lit "biology", lit "ecology",
      lit "climate", lit "weather", lit "space", lit "nasa",
      lit "cern", lit "noaa", lit "nih.", lit "nsf."],
    priority := 3 },
  { name := "Healthcare",
    patterns := [
      lit "health", lit "hospital", lit "medical", lit "medicine",
      lit "clinic", lit "healthcare", lit "salud", lit "sante",
      lit "nhs", lit "medicare", lit "medicaid", lit "patient",
      lit "disease", lit "treatment", lit "therapy",
      lit "pharmaceutical", lit "drug", lit "nursing"],
    priority := 4 },
  { name := "Non-profit",
    patterns := [
      patTld ".org", lit "foundation", lit "fundacion",
      lit "ngo", lit "nonprofit", lit "non-profit",
      lit "charity", lit "charitable", lit "trust",
      lit "association", lit "society", lit "community",
      lit "humanitarian", lit "volunteer", lit "donation",
      lit "wwf", lit "greenpeace", lit "amnesty",
      lit "red-cross", lit "united-nations", lit "unesco"],
    priority := 5 },
  { name := "Commercial",
    patterns := [
      patTld ".com", patTld ".io", patTld ".biz",
      lit "enterprise", lit "company", lit "corporation",
      lit "ltd", lit "inc", lit "corp", lit "gmbh", lit "sarl",
      lit "business", lit "commercial", lit "market",
      lit "sales", lit "product", lit "service",
      lit "consulting", lit "solutions", lit "technologies"],
    priority := 6 },
  { name := "Transportation",
    patterns := [
      lit "transport", lit "transit", lit "railway", lit "rail",
      lit "airport", lit "aviation", lit "traffic",
      lit "highway", lit "roads", lit "mobility",
      lit "logistics", lit "shipping", lit "freight",
      lit "metro", lit "subway", lit "bus", lit "ferry"],
    priority := 7 },
  { name := "Environmental",
    patterns := [
      lit "environment", lit "environmental", lit "ecology",
      lit "climate", lit "weather", lit "meteorolog",
      lit "conservation", lit "wildlife", lit "nature",
      lit "sustainability", lit "renewable", lit "energy",
      lit "pollution", lit "emissions", lit "recycling",
      lit "biodiversity", lit "ecosystem", lit "forest"],
    priority := 8 },
  { name := "Agriculture",
    patterns := [
      lit "agriculture", lit "agricultural", lit "farming",
      lit "farm", lit "crop", lit "livestock", lit "cattle",
      lit "fisheries", lit "aquaculture", lit "forestry",
      lit "food", lit "nutrition", lit "harvest",
      lit "irrigation", lit "soil", lit "seed"],
    priority := 9 },
  { name := "Regional",
    patterns := [
      lit "regional", lit "local", lit "district", lit "county",
      lit "borough", lit "township", lit "parish",
      lit "metropolitan", lit "urban", lit "rural",
      lit "geographic", lit "spatial", lit "mapping",
      lit "cadastre", lit "territory", lit "zone"],
    priority := 10 }]

/-- Priority lookup `self.domain_patterns[category]['priority']` used by the
sort key of `analyze_domain`. -/
def priorityOf (category : String) : Nat :=
  match domain_patterns.find? (fun cfg => cfg.name == category) with
  | some cfg => cfg.priority
  | none => 0

/-- The inner loop of `analyze_domain`: how many of a category's patterns
match the domain (`score` in the source). -/
def category_score (cfg : CatConfig) (domain : String) : Nat :=
  (cfg.patterns.filter (fun p => reSearch p domain)).length

/-- The exact-TLD confidence boosts of `analyze_domain`
(`confidence = max(confidence, ...)` branches). -/
def tld_boost (category : String) (domain : String) (confidence : ℚ) : ℚ :=
  if category = "Government" ∧ reSearch (patTld ".gov") domain = true then
    max confidence 90
  else if category = "Educational" ∧ reSearch (patTld ".edu") domain = true then
    max confidence 90
  else if category = "Non-profit" ∧ reSearch (patTld ".org") domain = true then
    max confidence 70
  else confidence

/-- The unsorted `matches` list built by `analyze_domain`: one
`(category, confidence)` pair per category with a positive score.  The
source also records the matched patterns in each entry, but only the first
two components are ever read (by the sort key and the projection on return),
so they are dropped here. -/
def raw_matches (domain : String) : List (String × ℚ) :=
  domain_patterns.filterMap (fun cfg =>
    if 0 < category_score cfg domain then
      some (cfg.name,
        tld_boost cfg.name domain
          (min (mkRat (category_score cfg domain * 100) cfg.patterns.length)
            100))
    else none)

/-- The sort key of `analyze_domain`:
`matches.sort(key=lambda x: (x[1], -priority), reverse=True)` places `a`
before `b` exactly when `a` has higher confidence, or equal confidence and a
lower (or equal) priority.  Equal keys cannot occur because categories are
distinct and have distinct priorities, so insertion sort reproduces Python's
stable sort exactly. -/
def matchLe (a b : String × ℚ) : Prop :=
  b.2 < a.2 ∨ (a.2 = b.2 ∧ priorityOf a.1 ≤ priorityOf b.1)

instance : DecidableRel matchLe := fun a b =>
  inferInstanceAs (Decidable (_ ∨ _))

instance : IsTrans (String × ℚ) matchLe where
  trans a b c hab hbc := by
    rcases hab with h1 | ⟨h1, h1p⟩ <;> rcases hbc with h2 | ⟨h2, h2p⟩
    · exact Or.inl (h2.trans h1)
    · exact Or.inl (h2 ▸ h1)
    · exact Or.inl (h1 ▸ h2)
    · exact Or.inr ⟨h1.trans h2, h1p.trans h2p⟩

instance : IsTotal (String × ℚ) matchLe where
  total a b := by
    rcases lt_trichotomy a.2 b.2 with h | h | h
    · exact Or.inr (Or.inl h)
    · rcases Nat.le_total (priorityOf a.1) (priorityOf b.1) with hp | hp
      · exact Or.inl (Or.inr ⟨h, hp⟩)
      · exact Or.inr (Or.inr ⟨h.symm, hp⟩)
    · exact Or.inl (Or.inl h)

/-- `CKANSiteTypeDetector.analyze_domain`, as a function of the lowercased
netloc (each source method recomputes `urlparse(url).netloc.lower()` from the
same `url`; the extraction itself is modelled once in `get_site_type`). -/
def analyze_domain (domain : String) : List (String × ℚ) :=
  (raw_matches domain).insertionSort matchLe

/-- The `gov_country_patterns` table of `check_country_tld`, in source order. -/
def gov_country_patterns : List (RE × String × Nat) := [
  (patEnd ".uk", "Government", 60),
  (patEnd ".ca", "Government", 60),
  (patEnd ".au", "Government", 60),
  (patEnd ".nz", "Government", 60),
  (patEnd ".in", "Government", 55),
  (patEnd ".za", "Government", 55),
  (patEnd ".sg", "Government", 60),
  (patEnd ".my", "Government", 55),
  (patEnd ".jp", "Government", 50),
  (patEnd ".kr", "Government", 50),
  (patEnd ".cn", "Government", 60),
  (patEnd ".de", "Regional", 45),
  (patEnd ".fr", "Government", 50),
  (patEnd ".es", "Government", 50),
  (patEnd ".it", "Government", 50),
  (patEnd ".nl", "Government", 50),
  (patEnd ".be", "Government", 50),
  (patEnd ".ch", "Government", 50),
  (patEnd ".at", "Government", 50),
  (patEnd ".eu", "Government", 65)]

/-- The `data_keywords` list of `check_country_tld`. -/
def data_keywords : List String :=
  ["data", "datos", "donnees", "daten", "open", "portal"]

/-- The `for pattern in gov_country_patterns` loop of `check_country_tld`:
return on the first matching pattern, `("Unknown", 0)` after the loop. -/
def country_tld_loop (domain : String) (hasKw : Bool) :
    List (RE × String × Nat) → String × ℚ
  | [] => ("Unknown", 0)
  | (pat, category, base) :: rest =>
      if reSearch pat domain then
        (category, ((min (if hasKw then base + 20 else base) 80 : Nat) : ℚ))
      else country_tld_loop domain hasKw rest

/-- `CKANSiteTypeDetector.check_country_tld` on the lowercased netloc. -/
def check_country_tld (domain : String) : String × ℚ :=
  country_tld_loop domain
    (data_keywords.any (fun k => containsSub domain k))
    gov_country_patterns

/-- The `subdomain_patterns` table of `analyze_subdomain`, in source order. -/
def subdomain_patterns : List (String × String × ℚ) := [
  ("data", "Government", 65),
  ("opendata", "Government", 70),
  ("datos", "Government", 70),
  ("research", "Research", 75),
  ("science", "Research", 70),
  ("health", "Healthcare", 70),
  ("transport", "Transportation", 75),
  ("environment", "Environmental", 75),
  ("education", "Educational", 70),
  ("portal", "Government", 60),
  ("geo", "Regional", 65),
  ("maps", "Regional", 65),
  ("statistics", "Government", 65),
  ("census", "Government", 70)]

/-- `CKANSiteTypeDetector.analyze_subdomain` on the lowercased netloc: when
the domain has more than two dot-separated labels, the first table entry
whose key is a substring of the leftmost label wins. -/
def analyze_subdomain (domain : String) : String × ℚ :=
  let subdomain_parts := pySplitDot domain
  if 2 < subdomain_parts.length then
    let subdomain := subdomain_parts.headD ""
    match subdomain_patterns.find? (fun p => containsSub subdomain p.1) with
    | some p => (p.2.1, p.2.2)
    | none => ("Unknown", 0)
  else ("Unknown", 0)

/-- `CKANSiteTypeDetector.check_data_portal_patterns` on the lowercased
netloc. -/
def check_data_portal_patterns (domain : String) : String × ℚ :=
  if ["dataplatform", "dataportal", "openplatform"].any
      (fun k => containsSub domain k) then
    if containsSub domain "gov" || containsSub domain "public" then
      ("Government", 65)
    else if containsSub domain "research" || containsSub domain "science" then
      ("Research", 65)
    else ("Regional", 55)
  else if reSearch digits2 domain || reSearch (.seq cc2 digits2) domain then
    ("Regional", 50)
  else ("Unknown", 0)

/-- `CKANSiteTypeDetector.statistical_classification` on the lowercased
netloc. -/
def statistical_classification (domain : String) : String × ℚ :=
  let domain_parts := pySplitDot domain
  if domain_parts.length = 2 ∧
      (["data", "open"].any (fun k => containsSub domain k)) = true then
    ("Government", 55)
  else if 4 ≤ domain_parts.length then
    if ["univ", "edu", "acad"].any (fun k => containsSub domain k) then
      ("Educational", 60)
    else ("Government", 50)
  else if reSearch (.seq plusLower (.seq (.char '-') plusLower)) domain ||
      reSearch (.seq plusLower (.seq (.char '.')
        (.seq plusLower (.seq (.char '-') plusLower)))) domain then
    ("Regional", 55)
  else ("Unknown", 0)

/-- `CKANSiteTypeDetector.default_classification` on the lowercased netloc. -/
def default_classification (domain : String) : String × ℚ :=
  if containsSub domain "data" || containsSub domain "datos" ||
      containsSub domain "donnees" then
    ("Government", 45)
  else if pyEndsWith domain ".org" then
    ("Non-profit", 45)
  else if pyEndsWith domain ".com" || pyEndsWith domain ".io" then
    if ["map", "geo", "city", "region", "local"].any
        (fun k => containsSub domain k) then
      ("Regional", 45)
    else ("Commercial", 40)
  else ("Regional", 40)

/-- `CKANSiteTypeDetector.apply_fallback_methods`: the ordered,
short-circuiting fallback chain. -/
def apply_fallback_methods (domain : String) : String × ℚ :=
  let r1 := check_country_tld domain
  if r1.1 ≠ "Unknown" then r1
  else
    let r2 := analyze_subdomain domain
    if r2.1 ≠ "Unknown" then r2
    else
      let r3 := check_data_portal_patterns domain
      if r3.1 ≠ "Unknown" then r3
      else
        let r4 := statistical_classification domain
        if r4.1 ≠ "Unknown" then r4
        else default_classification domain

/-- Python's `max(combined_scores.items(), key=lambda x: x[1])`:
the first pair with the maximal second component (`max` keeps the current
best and replaces it only on a strictly greater key).  `combined_scores`
itself is the dict built from `analyze_domain`'s pairs, whose categories are
distinct, so it holds the same pairs in the same order. -/
def max_by_value : List (String × ℚ) → Option (String × ℚ)
  | [] => none
  | x :: xs => some (xs.foldl (fun best y => if best.2 < y.2 then y else best) x)

/-- The body of `get_site_type`'s `try` block, as a function of the
lowercased netloc. -/
def get_site_type_core (domain : String) : String × ℚ :=
  let dm := analyze_domain domain
  let best :=
    match max_by_value dm with
    | some (c, s) => (c, min s 100)
    | none => ("Unknown", (0 : ℚ))
  if best.1 = "Unknown" then apply_fallback_methods domain else best

/-- The `metadata` dict returned by `get_site_type`: on success the
(un-lowercased) netloc and the top three entries of `domain_matches`;
on an exception the `error` text. -/
inductive Metadata where
  | ok (domain : String) (domain_matches : List (String × ℚ))
  | err (msg : String)
deriving DecidableEq

/-- `CKANSiteTypeDetector.get_site_type`: parse the netloc once (every helper
re-parses the same `url`, so this is equivalent), run the primary matcher and
the fallback chain, and catch any exception, returning
`("Regional", 30, {'error': ...})` in that case. -/
def get_site_type (url : String) : String × ℚ × Metadata :=
  match extractNetlocE url with
  | .error e => ("Regional", 30, .err e)
  | .ok netloc =>
      let domain := pyLower netloc
      let best := get_site_type_core domain
      (best.1, best.2, .ok netloc ((analyze_domain domain).take 3))

/-- The `region_mappings` table of `normalize_region`, in source order. -/
def region_mappings : List (String × String) := [
  ("latin america", "Latin America & Caribbean"),
  ("south america", "Latin America & Caribbean"),
  ("central america", "Latin America & Caribbean"),
  ("caribbean", "Latin America & Caribbean"),
  ("sub-saharan africa", "Sub-Saharan Africa"),
  ("southern africa", "Sub-Saharan Africa"),
  ("central africa", "Sub-Saharan Africa"),
  ("east africa", "Sub-Saharan Africa"),
  ("west africa", "Sub-Saharan Africa"),
  ("europe", "Europe"),
  ("western europe", "Europe"),
  ("eastern europe", "Europe"),
  ("northern europe", "Europe"),
  ("southern europe", "Europe"),
  ("eu", "Europe"),
  ("asia-pacific", "Asia-Pacific"),
  ("asia pacific", "Asia-Pacific"),
  ("east asia", "Asia-Pacific"),
  ("southeast asia", "Asia-Pacific"),
  ("south asia", "Asia-Pacific"),
  ("oceania", "Asia-Pacific"),
  ("pacific", "Asia-Pacific"),
  ("australasia", "Asia-Pacific"),
  ("north africa", "North Africa & Middle East"),
  ("middle east", "North Africa & Middle East"),
  ("mena", "North Africa & Middle East"),
  ("central asia", "Central Asia")]

/-- The `allowed_regions` list of `normalize_region`. -/
def allowed_regions : List String := [
  "North America",
  "Latin America & Caribbean",
  "Sub-Saharan Africa",
  "Europe",
  "Asia-Pacific",
  "North Africa & Middle East",
  "Central Asia",
  "Global / Uncertain"]

/-- The `country_region_map` table of `normalize_region`, in source order.
The source builds this table but never reads it: control falls through to
the final `return "Global / Uncertain"`. -/
def country_region_map : List (String × String) := [
  ("united states", "North America"),
  ("canada", "North America"),
  ("mexico", "Latin America & Caribbean"),
  ("brazil", "Latin America & Caribbean"),
  ("argentina", "Latin America & Caribbean"),
  ("colombia", "Latin America & Caribbean"),
  ("chile", "Latin America & Caribbean"),
  ("peru", "Latin America & Caribbean"),
  ("united kingdom", "Europe"),
  ("france", "Europe"),
  ("germany", "Europe"),
  ("italy", "Europe"),
  ("spain", "Europe"),
  ("china", "Asia-Pacific"),
  ("japan", "Asia-Pacific"),
  ("india", "Asia-Pacific"),
  ("australia", "Asia-Pacific"),
  ("new zealand", "Asia-Pacific"),
  ("indonesia", "Asia-Pacific"),
  ("egypt", "North Africa & Middle East"),
  ("saudi arabia", "North Africa & Middle East"),
  ("israel", "North Africa & Middle East"),
  ("south africa", "Sub-Saharan Africa"),
  ("nigeria", "Sub-Saharan Africa"),
  ("kenya", "Sub-Saharan Africa"),
  ("kazakhstan", "Central Asia"),
  ("uzbekistan", "Central Asia")]

/-- `normalize_region` of `5-locationAnalyser.py`.  Tier 1: exact membership
in `allowed_regions`; tier 2: first `region_mappings` key contained in the
lowercased input; afterwards the source defines `country_region_map` but
falls through to the sentinel without consulting it. -/
def normalize_region (region : String) : String :=
  let r := if region = "" then "" else pyStrip region
  if allowed_regions.contains r then r
  else
    match region_mappings.find? (fun p => containsSub (pyLower r) p.1) with
    | some p => p.2
    | none => "Global / Uncertain"

/-- The fixed Category enumeration of the engine: the ten sector categories
of `domain_patterns`, plus the intermediate `"Unknown"`. -/
def category_enum : List String := [
  "Government", "Educational", "Research", "Healthcare", "Non-profit",
  "Commercial", "Transportation", "Environmental", "Agriculture", "Regional",
  "Unknown"]

theorem foldl_max_stay (xs : List (String × ℚ)) (x : String × ℚ)
    (h : ∀ y ∈ xs, ¬ x.2 < y.2) :
    xs.foldl (fun best y => if best.2 < y.2 then y else best) x = x := by
  induction xs with
  | nil => rfl
  | cons y ys ih =>
      have hy : ¬ x.2 < y.2 := h y (List.mem_cons_self _ _)
      simp only [List.foldl_cons, if_neg hy]
      exact ih (fun z hz => h z (List.mem_cons_of_mem _ hz))

theorem foldl_max_mem (xs : List (String × ℚ)) (best : String × ℚ) :
    xs.foldl (fun b y => if b.2 < y.2 then y else b) best = best ∨
      xs.foldl (fun b y => if b.2 < y.2 then y else b) best ∈ xs := by
  induction xs generalizing best with
  | nil => exact Or.inl rfl
  | cons y ys ih =>
      simp only [List.foldl_cons]
      rcases ih (if best.2 < y.2 then y else best) with h | h
      · rw [h]
        split
        · exact Or.inr (List.mem_cons_self _ _)
        · exact Or.inl rfl
      · exact Or.inr (List.mem_cons_of_mem _ h)

theorem mem_of_max_by_value {l : List (String × ℚ)} {m : String × ℚ}
    (h : max_by_value l = some m) : m ∈ l := by
  cases l with
  | nil => exact absurd h (by simp [max_by_value])
  | cons x xs =>
      injection h with h
      rcases foldl_max_mem xs x with h2 | h2
      · rw [← h, h2]; exact List.mem_cons_self _ _
      · exact h ▸ List.mem_cons_of_mem _ h2

theorem max_by_value_cons {x : String × ℚ} {xs : List (String × ℚ)}
    (h : ∀ y ∈ xs, ¬ x.2 < y.2) : max_by_value (x :: xs) = some x := by
  simp only [max_by_value, foldl_max_stay xs x h]

theorem mem_analyze_domain {d : String} {p : String × ℚ} :
    p ∈ analyze_domain d ↔ p ∈ raw_matches d := by
  simp [analyze_domain]

theorem raw_matches_spec {d : String} {p : String × ℚ} (h : p ∈ raw_matches d) :
    ∃ cfg ∈ domain_patterns, cfg.name = p.1 ∧ 0 < category_score cfg d ∧
      p.2 = tld_boost cfg.name d
        (min (mkRat (category_score cfg d * 100) cfg.patterns.length)
          100) := by
  rcases List.mem_filterMap.mp h with ⟨cfg, hcfg, hf⟩
  refine ⟨cfg, hcfg, ?_⟩
  by_cases hs : 0 < category_score cfg d
  · rw [if_pos hs] at hf
    injection hf with hf
    rw [← hf]
    exact ⟨rfl, hs, rfl⟩
  · rw [if_neg hs] at hf
    exact absurd hf (by simp)

theorem domain_patterns_names :
    ∀ cfg ∈ domain_patterns, cfg.name ∈ category_enum ∧ cfg.name ≠ "Unknown" := by
  decide

theorem analyze_domain_name_mem {d : String} {p : String × ℚ}
    (h : p ∈ analyze_domain d) : p.1 ∈ category_enum ∧ p.1 ≠ "Unknown" := by
  rcases raw_matches_spec (mem_analyze_domain.mp h) with ⟨cfg, hcfg, hname, -, -⟩
  exact hname ▸ domain_patterns_names cfg hcfg

theorem country_tld_loop_cases (d : String) (kw : Bool)
    (l : List (RE × String × Nat))
    (hl : ∀ e ∈ l, e.2.1 ∈ category_enum ∧ e.2.1 ≠ "Unknown") :
    country_tld_loop d kw l = ("Unknown", 0) ∨
      ((country_tld_loop d kw l).1 ∈ category_enum ∧
        (country_tld_loop d kw l).1 ≠ "Unknown") := by
  induction l with
  | nil => exact Or.inl rfl
  | cons e rest ih =>
      obtain ⟨pat, cat, base⟩ := e
      simp only [country_tld_loop]
      split
      · exact Or.inr (hl _ (List.mem_cons_self _ _))
      · exact ih (fun q hq => hl q (List.mem_cons_of_mem _ hq))

theorem check_country_tld_cases (d : String) :
    check_country_tld d = ("Unknown", 0) ∨
      ((check_country_tld d).1 ∈ category_enum ∧
        (check_country_tld d).1 ≠ "Unknown") :=
  country_tld_loop_cases d _ _ (by decide)

theorem analyze_subdomain_cases (d : String) :
    analyze_subdomain d = ("Unknown", 0) ∨
      ((analyze_subdomain d).1 ∈ category_enum ∧
        (analyze_subdomain d).1 ≠ "Unknown") := by
  by_cases hlen : 2 < (pySplitDot d).length
  · simp only [analyze_subdomain, if_pos hlen]
    cases hf : subdomain_patterns.find?
        (fun p => containsSub ((pySplitDot d).headD "") p.1) with
    | none => simp [hf]
    | some p =>
        simp only [hf]
        refine Or.inr ?_
        have h2 : ∀ q ∈ subdomain_patterns,
            q.2.1 ∈ category_enum ∧ q.2.1 ≠ "Unknown" := by decide
        exact h2 p (List.mem_of_find?_eq_some hf)
  · simp [analyze_subdomain, if_neg hlen]

theorem check_data_portal_cases (d : String) :
    check_data_portal_patterns d = ("Unknown", 0) ∨
      ((check_data_portal_patterns d).1 ∈ category_enum ∧
        (check_data_portal_patterns d).1 ≠ "Unknown") := by
  unfold check_data_portal_patterns
  split_ifs <;> first | exact Or.inl rfl | exact Or.inr (by decide)

theorem statistical_classification_cases (d : String) :
    statistical_classification d = ("Unknown", 0) ∨
      ((statistical_classification d).1 ∈ category_enum ∧
        (statistical_classification d).1 ≠ "Unknown") := by
  simp only [statistical_classification]
  by_cases hA : (pySplitDot d).length = 2 ∧
      (["data", "open"].any fun k => containsSub d k) = true
  · rw [if_pos hA]; exact Or.inr (by decide)
  · rw [if_neg hA]
    by_cases hB : 4 ≤ (pySplitDot d).length
    · rw [if_pos hB]
      by_cases hC : (["univ", "edu", "acad"].any fun k => containsSub d k) = true
      · rw [if_pos hC]; exact Or.inr (by decide)
      · rw [if_neg hC]; exact Or.inr (by decide)
    · rw [if_neg hB]
      by_cases hD : (reSearch (.seq plusLower (.seq (.char '-') plusLower)) d ||
          reSearch (.seq plusLower (.seq (.char '.')
            (.seq plusLower (.seq (.char '-') plusLower)))) d) = true
      · rw [if_pos hD]; exact Or.inr (by decide)
      · rw [if_neg hD]; exact Or.inl rfl

theorem default_classification_mem (d : String) :
    (default_classification d).1 ∈ category_enum ∧
      (default_classification d).1 ≠ "Unknown" := by
  unfold default_classification
  split_ifs <;> decide

theorem apply_fallback_methods_mem (d : String) :
    (apply_fallback_methods d).1 ∈ category_enum ∧
      (apply_fallback_methods d).1 ≠ "Unknown" := by
  simp only [apply_fallback_methods]
  split_ifs with h1 h2 h3 h4
  · rcases check_country_tld_cases d with h | h
    · exact absurd (congrArg Prod.fst h) h1
    · exact h
  · rcases analyze_subdomain_cases d with h | h
    · exact absurd (congrArg Prod.fst h) h2
    · exact h
  · rcases check_data_portal_cases d with h | h
    · exact absurd (congrArg Prod.fst h) h3
    · exact h
  · rcases statistical_classification_cases d with h | h
    · exact absurd (congrArg Prod.fst h) h4
    · exact h
  · exact default_classification_mem d

theorem get_site_type_core_mem (d : String) :
    (get_site_type_core d).1 ∈ category_enum ∧
      (get_site_type_core d).1 ≠ "Unknown" := by
  unfold get_site_type_core
  cases hm : max_by_value (analyze_domain d) with
  | none => simpa [hm] using apply_fallback_methods_mem d
  | some p =>
      obtain ⟨c, s⟩ := p
      have hname := analyze_domain_name_mem (mem_of_max_by_value hm)
      simp only [hm, if_neg hname.2]
      exact hname

theorem normalize_core_mem (r : String) :
    (if allowed_regions.contains r then r
     else
       match region_mappings.find? (fun p => containsSub (pyLower r) p.1) with
       | some p => p.2
       | none => "Global / Uncertain") ∈ allowed_regions := by
  by_cases h : allowed_regions.contains r = true
  · rw [if_pos h]; exact List.mem_of_elem_eq_true h
  · rw [if_neg h]
    cases hf : region_mappings.find? (fun p => containsSub (pyLower r) p.1) with
    | none => simp only [hf]; decide
    | some p =>
        simp only [hf]
        have h2 : ∀ q ∈ region_mappings, q.2 ∈ allowed_regions := by decide
        exact h2 p (List.mem_of_find?_eq_some hf)

theorem normalize_region_mem (s : String) :
    normalize_region s ∈ allowed_regions :=
  normalize_core_mem (if s = "" then "" else pyStrip s)

/-- C1: totality of both public operations.  For every input string `s`
(including the empty string and strings from which no host can be parsed),
`get_site_type s` returns a category that is a member of the fixed Category
enumeration and is never `"Unknown"` (both functions are total Lean
functions, so neither raises an exception to its caller; the caught internal
exception path is the `Except.error` branch of `extractNetlocE`), and
`normalize_region s` is a member of the fixed 8-element `allowed_regions`
enumeration. -/
theorem classify_and_normalize_total (s : String) :
    ((get_site_type s).1 ∈ category_enum ∧ (get_site_type s).1 ≠ "Unknown") ∧
      normalize_region s ∈ allowed_regions := by
  refine ⟨?_, normalize_region_mem s⟩
  unfold get_site_type
  cases he : extractNetlocE s with
  | error e =>
      refine ⟨?_, ?_⟩
      · show "Regional" ∈ category_enum
        decide
      · show "Regional" ≠ "Unknown"
        decide
  | ok netloc => exact get_site_type_core_mem (pyLower netloc)

/-- C2: idempotence of normalization.  For every `r` already a member of the
`allowed_regions` enumeration (exactly as enumerated), `normalize_region r`
returns `r` unchanged: the tier-1 exact-membership check fires before any
other tier. -/
theorem normalize_region_idempotent :
    ∀ r ∈ allowed_regions, normalize_region r = r := by
  decide

theorem normalize_region_idempotent_witness :
    "Europe" ∈ allowed_regions ∧ normalize_region "Europe" = "Europe" :=
  ⟨by decide, normalize_region_idempotent "Europe" (by decide)⟩

/-- C3 (counterexample): the claim states that
`classify("https://opendata.example.io")` has no primary pattern hit and is
resolved by the subdomain heuristic to Government with confidence 70.  In
fact the Commercial pattern `\.io(\.|$)` of the primary PatternTable matches
the domain, so the returned category is `"Commercial"` (and the confidence is
5, not 70). -/
theorem classify_opendata_example_io_cex :
    (get_site_type "https://opendata.example.io").1 = "Commercial" ∧
      (get_site_type "https://opendata.example.io").1 ≠ "Government" ∧
      (get_site_type "https://opendata.example.io").2.1 ≠ 70 := by
  decide

/-- C3 (amended): `classify("https://opendata.example.io")` does have a
primary PatternTable hit — the Commercial pattern `\.io(\.|$)` — so the
fallback chain (and in particular the subdomain heuristic) is never
consulted, and the result is category Commercial with confidence
`1 / 20 * 100 = 5`. -/
theorem classify_opendata_example_io_amended :
    analyze_domain "opendata.example.io" = [("Commercial", 5)] ∧
      get_site_type "https://opendata.example.io" =
        ("Commercial", 5, Metadata.ok "opendata.example.io"
          [("Commercial", 5)]) := by
  decide

/-- C4 (counterexample): the claim states that an input naming a country of
the static country table — for example `"France"`, which misses tier 1 and
tier 2 — is mapped to that country's region (`"Europe"`).  In fact
`normalize_region "France"` returns the sentinel `"Global / Uncertain"`,
although `("france", "Europe")` is an entry of `country_region_map`: the
source builds that table but never consults it. -/
theorem normalize_region_france_cex :
    ("france", "Europe") ∈ country_region_map ∧
      normalize_region "France" = "Global / Uncertain" ∧
      normalize_region "France" ≠ "Europe" := by
  decide

/-- C4 (amended): the tier-3 country table exists in the source but is dead
code.  Every input that misses tier 1 (exact membership) and tier 2 (synonym
substring) returns the sentinel `"Global / Uncertain"`, even when its
normalized form is literally a key of `country_region_map`. -/
theorem normalize_region_country_table_unused (region v : String)
    (h1 : allowed_regions.contains
        (if region = "" then "" else pyStrip region) = false)
    (h2 : region_mappings.find? (fun p =>
        containsSub (pyLower (if region = "" then "" else pyStrip region))
          p.1) = none)
    (h3 : (pyLower (if region = "" then "" else pyStrip region), v) ∈
        country_region_map) :
    normalize_region region = "Global / Uncertain" := by
  have h1' : ¬ allowed_regions.contains
      (if region = "" then "" else pyStrip region) = true := by
    rw [h1]; exact Bool.false_ne_true
  simp only [normalize_region, if_neg h1', h2]

theorem normalize_region_country_table_unused_witness :
    (allowed_regions.contains
        (if "France" = "" then "" else pyStrip "France") = false) ∧
      (region_mappings.find? (fun p =>
        containsSub (pyLower (if "France" = "" then "" else pyStrip "France"))
          p.1) = none) ∧
      (pyLower (if "France" = "" then "" else pyStrip "France"), "Europe") ∈
        country_region_map ∧
      normalize_region "France" = "Global / Uncertain" :=
  ⟨by decide, by decide, by decide,
    normalize_region_country_table_unused "France" "Europe" (by decide)
      (by decide) (by decide)⟩

theorem not_lt_of_matchLe {x y : String × ℚ} (h : matchLe x y) :
    ¬ x.2 < y.2 := by
  rcases h with h | ⟨h, -⟩
  · exact lt_asymm h
  · exact h ▸ lt_irrefl _

theorem analyze_domain_sorted (d : String) :
    List.Sorted matchLe (analyze_domain d) :=
  List.sorted_insertionSort matchLe (raw_matches d)

theorem core_selects_head {d c : String} {q : ℚ} {xs : List (String × ℚ)}
    (hL : analyze_domain d = (c, q) :: xs) :
    get_site_type_core d = (c, min q 100) := by
  have hs := analyze_domain_sorted d
  rw [hL] at hs
  have hmax : max_by_value ((c, q) :: xs) = some (c, q) :=
    max_by_value_cons
      (fun y hy => not_lt_of_matchLe (List.rel_of_sorted_cons hs y hy))
  have hname := analyze_domain_name_mem (hL ▸ List.mem_cons_self (c, q) xs)
  simp only [get_site_type_core, hL, hmax]
  rw [if_neg hname.2]

theorem core_tie_break {d c1 : String} {conf : ℚ}
    (h1 : (c1, conf) ∈ analyze_domain d)
    (hmax : ∀ p ∈ analyze_domain d, p.2 ≤ conf)
    (hmin : ∀ p ∈ analyze_domain d, p.2 = conf →
      priorityOf c1 ≤ priorityOf p.1) :
    (get_site_type_core d).1 = c1 := by
  obtain ⟨x, xs, hL⟩ : ∃ x xs, analyze_domain d = x :: xs := by
    cases hAD : analyze_domain d with
    | nil => rw [hAD] at h1; cases h1
    | cons a l => exact ⟨a, l, rfl⟩
  obtain ⟨cx, qx⟩ := x
  have hs := analyze_domain_sorted d
  rw [hL] at hs
  have hxmem : (cx, qx) ∈ analyze_domain d := hL ▸ List.mem_cons_self _ _
  have hx2 : qx ≤ conf := hmax _ hxmem
  have hkey : qx = conf ∧ priorityOf cx ≤ priorityOf c1 := by
    rcases List.mem_cons.mp (hL ▸ h1) with h | h
    · injection h with ha hb
      subst ha; subst hb
      exact ⟨rfl, le_refl _⟩
    · rcases List.rel_of_sorted_cons hs _ h with hlt | ⟨heq, hp⟩
      · exact absurd (lt_of_le_of_lt hx2 hlt) (lt_irrefl qx)
      · exact ⟨heq, hp⟩
  have hprio : priorityOf c1 ≤ priorityOf cx := hmin (cx, qx) hxmem hkey.1
  have heqp : priorityOf cx = priorityOf c1 := le_antisymm hkey.2 hprio
  have hxname := analyze_domain_name_mem hxmem
  have hc1name := analyze_domain_name_mem h1
  have hinj : ∀ a ∈ category_enum, ∀ b ∈ category_enum,
      a ≠ "Unknown" → b ≠ "Unknown" → priorityOf a = priorityOf b → a = b := by
    decide
  have hcx : cx = c1 :=
    hinj cx hxname.1 c1 hc1name.1 hxname.2 hc1name.2 heqp
  rw [core_selects_head hL]
  exact hcx

/-- C5: tie-break determinism.  When the primary matcher yields two or more
scored candidates with equal maximal confidence, `get_site_type` selects the
tied candidate whose category has the numerically lowest Priority value in
the PatternTable (being a pure function, repeated calls with the same input
return the same category). -/
theorem tie_break_lowest_priority (url netloc c1 c2 : String) (conf : ℚ)
    (hok : extractNetlocE url = .ok netloc)
    (h1 : (c1, conf) ∈ analyze_domain (pyLower netloc))
    (h2 : (c2, conf) ∈ analyze_domain (pyLower netloc))
    (hne : c1 ≠ c2)
    (hmax : ∀ p ∈ analyze_domain (pyLower netloc), p.2 ≤ conf)
    (hmin : ∀ p ∈ analyze_domain (pyLower netloc), p.2 = conf →
      priorityOf c1 ≤ priorityOf p.1) :
    (get_site_type url).1 = c1 := by
  simp only [get_site_type, hok]
  exact core_tie_break h1 hmax hmin

theorem tie_break_lowest_priority_witness :
    (("Healthcare", mkRat 100 18) ∈
        analyze_domain (pyLower "nhs-forest.xyz") ∧
      ("Environmental", mkRat 100 18) ∈
        analyze_domain (pyLower "nhs-forest.xyz") ∧
      priorityOf "Healthcare" < priorityOf "Environmental") ∧
      (get_site_type "https://nhs-forest.xyz").1 = "Healthcare" :=
  ⟨⟨by decide, by decide, by decide⟩,
    tie_break_lowest_priority "https://nhs-forest.xyz" "nhs-forest.xyz"
      "Healthcare" "Environmental" (mkRat 100 18) (by rfl) (by decide)
      (by decide) (by decide) (by decide) (by decide)⟩

theorem category_score_eq_zero {cfg : CatConfig} {d : String}
    (h : ∀ p ∈ cfg.patterns, reSearch p d = false) :
    category_score cfg d = 0 := by
  unfold category_score
  rw [List.filter_eq_nil_iff.mpr (fun p hp => by simp [h p hp])]
  rfl

theorem category_score_pos {cfg : CatConfig} {d : String} {p : RE}
    (hp : p ∈ cfg.patterns) (h : reSearch p d = true) :
    0 < category_score cfg d := by
  unfold category_score
  exact List.length_pos.mpr
    (List.ne_nil_of_mem (List.mem_filter.mpr ⟨hp, h⟩))

theorem gov_only_elements {d : String}
    (hgov : reSearch (patTld ".gov") d = true)
    (hothers : ∀ cfg ∈ domain_patterns, cfg.name ≠ "Government" →
      ∀ p ∈ cfg.patterns, reSearch p d = false)
    {p : String × ℚ} (hp : p ∈ analyze_domain d) :
    p.1 = "Government" ∧ 90 ≤ p.2 ∧ p.2 ≤ 100 := by
  rcases raw_matches_spec (mem_analyze_domain.mp hp) with
    ⟨cfg, hcfg, hname, hpos, hconf⟩
  have hGname : cfg.name = "Government" := by
    by_contra hne
    rw [category_score_eq_zero (hothers cfg hcfg hne)] at hpos
    exact lt_irrefl 0 hpos
  rw [hGname] at hconf
  refine ⟨hname ▸ hGname, ?_, ?_⟩
  · rw [hconf]
    unfold tld_boost
    rw [if_pos ⟨rfl, hgov⟩]
    exact le_max_right _ _
  · rw [hconf]
    unfold tld_boost
    rw [if_pos ⟨rfl, hgov⟩]
    exact max_le (min_le_right _ _) (by norm_num)

/-- C6: TLD floor dominance.  For every URL whose extracted (lowercased)
domain matches the exact government TLD pattern `\.gov(\.|$)` and matches no
pattern of any other category, `get_site_type` returns category Government
with confidence at least 90, regardless of the keyword-density formula. -/
theorem gov_tld_floor_dominance (url netloc : String)
    (hok : extractNetlocE url = .ok netloc)
    (hgov : reSearch (patTld ".gov") (pyLower netloc) = true)
    (hothers : ∀ cfg ∈ domain_patterns, cfg.name ≠ "Government" →
      ∀ p ∈ cfg.patterns, reSearch p (pyLower netloc) = false) :
    (get_site_type url).1 = "Government" ∧ 90 ≤ (get_site_type url).2.1 := by
  obtain ⟨gcfg, hgmem, hgname, hgpat⟩ :
      ∃ cfg ∈ domain_patterns, cfg.name = "Government" ∧
        patTld ".gov" ∈ cfg.patterns := by decide
  have hscore : 0 < category_score gcfg (pyLower netloc) :=
    category_score_pos hgpat hgov
  have hmem : (gcfg.name, tld_boost gcfg.name (pyLower netloc)
      (min (mkRat (category_score gcfg (pyLower netloc) * 100)
        gcfg.patterns.length) 100)) ∈ raw_matches (pyLower netloc) :=
    List.mem_filterMap.mpr ⟨gcfg, hgmem, by rw [if_pos hscore]⟩
  obtain ⟨cx, qx, xs, hL⟩ : ∃ cx qx xs,
      analyze_domain (pyLower netloc) = (cx, qx) :: xs := by
    cases hAD : analyze_domain (pyLower netloc) with
    | nil => exact absurd (hAD ▸ mem_analyze_domain.mpr hmem) (List.not_mem_nil _)
    | cons a l =>
        obtain ⟨ca, qa⟩ := a
        exact ⟨ca, qa, l, rfl⟩
  have hx := gov_only_elements hgov hothers
    (hL ▸ List.mem_cons_self (cx, qx) xs)
  simp only [get_site_type, hok]
  rw [core_selects_head hL]
  exact ⟨hx.1, le_min hx.2.1 (by norm_num)⟩

theorem gov_tld_floor_dominance_witness :
    reSearch (patTld ".gov") (pyLower "mysite.gov") = true ∧
      ((get_site_type "https://mysite.gov").1 = "Government" ∧
        90 ≤ (get_site_type "https://mysite.gov").2.1) :=
  ⟨by decide,
    gov_tld_floor_dominance "https://mysite.gov" "mysite.gov" rfl
      (by decide) (by decide)⟩

theorem mkRat_formula (s len : Nat) (h : len ≠ 0) :
    mkRat ((s : ℤ) * 100) len = (s : ℚ) / (len : ℚ) * 100 := by
  rw [Rat.mkRat_eq_div]
  push_cast
  field_simp

theorem tld_boost_bounds (c d : String) (q : ℚ) (h0 : 0 ≤ q) (h1 : q ≤ 100) :
    0 ≤ tld_boost c d q ∧ tld_boost c d q ≤ 100 := by
  unfold tld_boost
  split_ifs
  · exact ⟨le_max_of_le_right (by norm_num), max_le h1 (by norm_num)⟩
  · exact ⟨le_max_of_le_right (by norm_num), max_le h1 (by norm_num)⟩
  · exact ⟨le_max_of_le_right (by norm_num), max_le h1 (by norm_num)⟩
  · exact ⟨h0, h1⟩

/-- C7: the confidence normalization formula.  Every candidate emitted by the
primary matcher for a category with at least one pattern hit carries the
confidence `min(rawHitCount / patternCount * 100, 100)`, possibly raised by
the exact-TLD floor (`tld_boost`), and the resulting value lies within
`[0, 100]`. -/
theorem confidence_formula_bounds (d c : String) (conf : ℚ)
    (h : (c, conf) ∈ analyze_domain d) :
    ∃ cfg ∈ domain_patterns, cfg.name = c ∧ 0 < category_score cfg d ∧
      conf = tld_boost c d
        (min ((category_score cfg d : ℚ) / (cfg.patterns.length : ℚ) * 100)
          100) ∧
      0 ≤ conf ∧ conf ≤ 100 := by
  rcases raw_matches_spec (mem_analyze_domain.mp h) with
    ⟨cfg, hcfg, hname, hpos, hconf⟩
  have hlen : cfg.patterns.length ≠ 0 := by
    have hall : ∀ q ∈ domain_patterns, q.patterns.length ≠ 0 := by decide
    exact hall cfg hcfg
  have hform : mkRat ((category_score cfg d : ℤ) * 100) cfg.patterns.length =
      (category_score cfg d : ℚ) / (cfg.patterns.length : ℚ) * 100 :=
    mkRat_formula _ _ hlen
  have hpre0 : 0 ≤
      min ((category_score cfg d : ℚ) / (cfg.patterns.length : ℚ) * 100)
        100 := le_min (by positivity) (by norm_num)
  have hpre100 :
      min ((category_score cfg d : ℚ) / (cfg.patterns.length : ℚ) * 100)
        100 ≤ 100 := min_le_right _ _
  have hb := tld_boost_bounds c d _ hpre0 hpre100
  have hconf2 : conf = tld_boost cfg.name d
      (min (mkRat ((category_score cfg d : ℤ) * 100) cfg.patterns.length)
        100) := hconf
  have hname2 : cfg.name = c := hname
  refine ⟨cfg, hcfg, hname, hpos, ?_, ?_, ?_⟩
  · rw [hconf2, hname2, hform]
  · rw [hconf2, hname2, hform]; exact hb.1
  · rw [hconf2, hname2, hform]; exact hb.2

theorem confidence_formula_bounds_witness :
    ("Government", (90 : ℚ)) ∈ analyze_domain "mysite.gov" ∧
      (∃ cfg ∈ domain_patterns, cfg.name = "Government" ∧
        0 < category_score cfg "mysite.gov" ∧
        (90 : ℚ) = tld_boost "Government" "mysite.gov"
          (min ((category_score cfg "mysite.gov" : ℚ) /
            (cfg.patterns.length : ℚ) * 100) 100) ∧
        0 ≤ (90 : ℚ) ∧ (90 : ℚ) ≤ 100) :=
  ⟨by decide,
    confidence_formula_bounds "mysite.gov" "Government" 90 (by decide)⟩

theorem country_tld_loop_find (d : String) (kw : Bool)
    (l : List (RE × String × Nat)) (entry : RE × String × Nat)
    (h : l.find? (fun p => reSearch p.1 d) = some entry) :
    country_tld_loop d kw l =
      (entry.2.1,
        ((min (if kw then entry.2.2 + 20 else entry.2.2) 80 : Nat) : ℚ)) := by
  induction l with
  | nil => cases h
  | cons e rest ih =>
      obtain ⟨pat, cat, base⟩ := e
      by_cases hp : reSearch pat d = true
      · simp only [List.find?, hp] at h
        injection h with h
        subst h
        simp only [country_tld_loop, if_pos hp]
      · have hp2 : reSearch pat d = false := by
          cases hval : reSearch pat d
          · rfl
          · exact absurd hval hp
        simp only [List.find?, hp2] at h
        simp only [country_tld_loop]
        rw [if_neg hp]
        exact ih h

/-- C8: country-TLD heuristic arithmetic.  For every domain whose first
matching entry of the country-TLD table is `entry`, the heuristic returns
`entry`'s category with confidence `baseConfidence + 20` when the domain
contains a data/open-data keyword and `baseConfidence` otherwise, capped at
80 in all cases. -/
theorem country_tld_arith (d : String) (entry : RE × String × Nat)
    (h : gov_country_patterns.find? (fun p => reSearch p.1 d) = some entry) :
    check_country_tld d =
      (entry.2.1,
        ((min (if data_keywords.any (fun k => containsSub d k)
          then entry.2.2 + 20 else entry.2.2) 80 : Nat) : ℚ)) ∧
      (check_country_tld d).2 ≤ 80 := by
  have hck : check_country_tld d =
      (entry.2.1,
        ((min (if data_keywords.any (fun k => containsSub d k)
          then entry.2.2 + 20 else entry.2.2) 80 : Nat) : ℚ)) :=
    country_tld_loop_find d _ gov_country_patterns entry h
  refine ⟨hck, ?_⟩
  rw [hck]
  show ((min (if data_keywords.any (fun k => containsSub d k)
    then entry.2.2 + 20 else entry.2.2) 80 : Nat) : ℚ) ≤ 80
  exact_mod_cast Nat.min_le_right _ _

theorem country_tld_arith_witness :
    gov_country_patterns.find? (fun p => reSearch p.1 "data.gov.uk") =
        some (patEnd ".uk", "Government", 60) ∧
      (check_country_tld "data.gov.uk" =
        ((patEnd ".uk", "Government", 60).2.1,
          ((min (if data_keywords.any (fun k => containsSub "data.gov.uk" k)
            then (patEnd ".uk", "Government", 60).2.2 + 20
            else (patEnd ".uk", "Government", 60).2.2) 80 : Nat) : ℚ)) ∧
        (check_country_tld "data.gov.uk").2 ≤ 80) :=
  ⟨by decide,
    country_tld_arith "data.gov.uk" (patEnd ".uk", "Government", 60)
      (by decide)⟩

/-- C9: fallback-chain ordering and short-circuit.  For every domain with no
primary PatternTable match whose suffix matches an entry of the country-TLD
table, the final classification is exactly the country-TLD heuristic's
output: the subdomain, data-portal, statistical and default heuristics are
not consulted (the equations hold for every such domain, in particular when
later heuristics' keywords would also match). -/
theorem fallback_country_tld_short_circuit (d : String)
    (hprimary : analyze_domain d = [])
    (htld : ∃ p ∈ gov_country_patterns, reSearch p.1 d = true) :
    apply_fallback_methods d = check_country_tld d ∧
      get_site_type_core d = check_country_tld d := by
  have hne : (check_country_tld d).1 ≠ "Unknown" := by
    obtain ⟨p, hpmem, hp⟩ := htld
    have hsome : (gov_country_patterns.find?
        (fun q => reSearch q.1 d)).isSome :=
      List.find?_isSome.mpr ⟨p, hpmem, hp⟩
    obtain ⟨entry, hentry⟩ := Option.isSome_iff_exists.mp hsome
    have hck := country_tld_loop_find d
      (data_keywords.any (fun k => containsSub d k)) gov_country_patterns
      entry hentry
    have hcat : entry.2.1 ≠ "Unknown" := by
      have hall : ∀ q ∈ gov_country_patterns, q.2.1 ≠ "Unknown" := by decide
      exact hall entry (List.mem_of_find?_eq_some hentry)
    intro hc
    rw [show check_country_tld d = _ from hck] at hc
    exact hcat hc
  have hfb : apply_fallback_methods d = check_country_tld d := by
    simp only [apply_fallback_methods, if_pos hne]
  refine ⟨hfb, ?_⟩
  have hcore : get_site_type_core d = apply_fallback_methods d := by
    unfold get_site_type_core
    rw [hprimary]
    rfl
  rw [hcore, hfb]

theorem fallback_country_tld_short_circuit_witness :
    analyze_domain "foo.uk" = [] ∧
      (∃ p ∈ gov_country_patterns, reSearch p.1 "foo.uk" = true) ∧
      (apply_fallback_methods "foo.uk" = check_country_tld "foo.uk" ∧
        get_site_type_core "foo.uk" = check_country_tld "foo.uk") :=
  ⟨by decide, by decide,
    fallback_country_tld_short_circuit "foo.uk" (by decide) (by decide)⟩

/-- C10: internal-exception fallback.  If the netloc extraction raises (the
exception path of `urlparse` modelled by `extractNetlocE`), `get_site_type`
catches it and returns category `"Regional"` with confidence 30 and metadata
carrying the error text; the exception never propagates and the returned
category is a member of the Category enumeration. -/
theorem get_site_type_exception_fallback (url e : String)
    (h : extractNetlocE url = .error e) :
    get_site_type url = ("Regional", 30, Metadata.err e) ∧
      "Regional" ∈ category_enum := by
  refine ⟨?_, by decide⟩
  simp only [get_site_type, h]

theorem get_site_type_exception_fallback_witness :
    extractNetlocE "http://[x" = .error "Invalid IPv6 URL" ∧
      (get_site_type "http://[x" =
          ("Regional", 30, Metadata.err "Invalid IPv6 URL") ∧
        "Regional" ∈ category_enum) :=
  ⟨rfl, get_site_type_exception_fallback "http://[x" "Invalid IPv6 URL" rfl⟩
